import Mathlib

/-!
Verification development for the L2script interpreter.

The TypeScript sources embedded here are:
  * `src/src/public/shape.ts` — `Point`, `Stroke`, the `iShape` interface, the
    abstract `Shape` base class and its subclasses `Text`, `Rectangle`,
    `Circle`, `Line`;
  * `src/unnamed/part_000` — the interpreter: naming rule, registry,
    command handlers, tokenizer (`cleanCommand`), command table, `wait`,
    `reset` and the `render` run loop.

JavaScript numbers are modelled by `JVal`: either NaN or an integer.  Every
numeric value produced by the modelled scripts is an integer; the single
source of non-integers, the circle variant's half-extent radius, flows only
into rendering-surface attribute values, which are modelled exactly by the
dyadic type `AttrNum` (an integer, or an odd integer divided by two).

The rendering surface (SVG DOM) is modelled per shape as an attribute
association list plus the two style/text slots the code touches
(`style.fill`, `textContent`).  DOM string coercion of attribute values is
not modelled; attribute values are stored as written (number, string, or
the null value).
-/

/-- JavaScript numeric value: NaN or an integer (the only numbers the
modelled scripts produce). -/
inductive JVal where
  | nan : JVal
  | num : Int → JVal
deriving DecidableEq, Repr

/-- JavaScript addition on `JVal`: NaN propagates. -/
def JVal.add : JVal → JVal → JVal
  | .num a, .num b => .num (a + b)
  | _, _ => .nan

/-- JavaScript multiplication on `JVal`: NaN propagates. -/
def JVal.mul : JVal → JVal → JVal
  | .num a, .num b => .num (a * b)
  | _, _ => .nan

/-- JavaScript comparison `n > 0`; false for NaN. -/
def JVal.pos : JVal → Bool
  | .num a => 0 < a
  | .nan => false

/-- JavaScript comparison `n > 1`; false for NaN. -/
def JVal.gtOne : JVal → Bool
  | .num a => 1 < a
  | .nan => false

/-- JavaScript truthiness of a number: false for NaN and 0. -/
def JVal.truthy : JVal → Bool
  | .num a => a ≠ 0
  | .nan => false

/-- Value of a digit string, most significant digit first. -/
def digitsVal : List Char → Int → Int
  | [], acc => acc
  | c :: cs, acc => digitsVal cs (acc * 10 + (c.toNat - '0'.toNat : Nat))

/-- Host `Number(string)` on the token grammar these scripts use: the empty
string is 0 (as in JavaScript), an optional sign followed by decimal digits
is that integer, and any other text is NaN.  (Fractional, hexadecimal and
exponent forms never occur in the modelled scripts.) -/
def jsNumber (s : String) : JVal :=
  match s.data with
  | [] => .num 0
  | '-' :: cs =>
    if cs.isEmpty then .nan
    else if cs.all Char.isDigit then .num (-(digitsVal cs 0)) else .nan
  | '+' :: cs =>
    if cs.isEmpty then .nan
    else if cs.all Char.isDigit then .num (digitsVal cs 0) else .nan
  | cs => if cs.all Char.isDigit then .num (digitsVal cs 0) else .nan

/-- Host `Number(x)` where `x` is a possibly-undefined string token:
`Number(undefined)` is NaN. -/
def jsNumberU : Option String → JVal
  | none => .nan
  | some s => jsNumber s

/-- Host string interpolation of a possibly-undefined string. -/
def jsStrU : Option String → String
  | none => "undefined"
  | some s => s

/-- Host `String(x)` for the nullable `withObjName` variable. -/
def jsStrN : Option String → String
  | none => "null"
  | some s => s

/-- Character class `[A-Za-z0-9_]` of the naming rule. -/
def wordTailChar (c : Char) : Bool :=
  c.isAlpha || c.isDigit || c = '_'

/-- Scan for two adjacent characters matching `[A-Za-z][A-Za-z0-9_]`. -/
def hasRulePair : List Char → Bool
  | a :: b :: rest => (a.isAlpha && wordTailChar b) || hasRulePair (b :: rest)
  | _ => false

/-- The interpreter's `varNamingRule.test(s)` where
`varNamingRule = /[A-Za-z][A-Za-z0-9_]+/`.  The regular expression is not
anchored, so the test succeeds exactly when the string contains a letter
immediately followed by a letter, digit or underscore (the `+` needs one
such character; further repetitions impose no extra constraint on mere
containment). -/
def varNamingRuleTest (s : String) : Bool :=
  hasRulePair s.data

/-- ASCII lowercase of a string (for the case-insensitive unit match). -/
def lowerStr (s : String) : String := ⟨s.data.map Char.toLower⟩

/-- The `wait` unit test `/^(seconds?|sec|s)$/i.test(unitName)`;
`unitName` undefined stringifies to "undefined", which does not match. -/
def isSecondsUnit : Option String → Bool
  | none => false
  | some s =>
    let t := lowerStr s
    t = "second" || t = "seconds" || t = "sec" || t = "s"

/-- Millisecond count computed by `wait`:
`((n > 0) ? n : 1000) * (secondsUnit ? 1000 : 1)`, on the already-coerced
numeric value of the first token. -/
def waitMsOfNum (n : JVal) (unit : Option String) : JVal :=
  let factor : JVal := if isSecondsUnit unit then .num 1000 else .num 1
  JVal.mul (if n.pos then n else .num 1000) factor

/-- Dyadic attribute number: NaN, an integer, or an odd integer divided by
two.  Exactly represents every numeric value the shape code writes to the
rendering surface (coordinates, sizes, and the circle variant's
half-extent radii); each value has a unique representation, so derived
equality is value equality. -/
inductive AttrNum where
  | nan : AttrNum
  | int : Int → AttrNum
  | halfOdd : Int → AttrNum
deriving DecidableEq, Repr

/-- Inject a JavaScript number into `AttrNum`. -/
def AttrNum.ofJVal : JVal → AttrNum
  | .nan => .nan
  | .num n => .int n

/-- Exact value of `w / 2` (the circle radius computation). -/
def AttrNum.halfOf : JVal → AttrNum
  | .nan => .nan
  | .num w => if 2 ∣ w then .int (w / 2) else .halfOdd w

/-- Exact value of `x + w / 2` (the circle centre computation). -/
def AttrNum.addHalf : JVal → JVal → AttrNum
  | .num x, .num w => if 2 ∣ w then .int (x + w / 2) else .halfOdd (2 * x + w)
  | _, _ => .nan

/-- Value written by `setAttributeNS`: a number, a string, or the null
value (written raw by `Line.moveTo` when an axis argument is null). -/
inductive AttrVal where
  | anum : AttrNum → AttrVal
  | astr : String → AttrVal
  | anull : AttrVal
deriving DecidableEq, Repr

/-- Shorthand for a plain numeric attribute value. -/
def AttrVal.num (v : JVal) : AttrVal := .anum (.ofJVal v)

/-- Write an attribute (`setAttributeNS`): replace the existing binding in
place, or append a new one. -/
def setAttrL : List (String × AttrVal) → String → AttrVal → List (String × AttrVal)
  | [], k, v => [(k, v)]
  | p :: t, k, v => if p.1 = k then (k, v) :: t else p :: setAttrL t k v

/-- Read an attribute back; `none` models `getAttributeNS` returning null
for an attribute that was never set. -/
def getAttrL : List (String × AttrVal) → String → Option AttrVal
  | [], _ => none
  | p :: t, k => if p.1 = k then some p.2 else getAttrL t k

/-- The `Point` class: two numeric coordinates. -/
structure JPoint where
  x : JVal
  y : JVal
deriving DecidableEq, Repr

/-- Method `Point.moveBy`: each axis adds `Number(arg === null ? 0 : arg)`. -/
def JPoint.moveBy (p : JPoint) (dx dy : Option JVal) : JPoint :=
  ⟨p.x.add (dx.getD (.num 0)), p.y.add (dy.getD (.num 0))⟩

/-- Method `Point.moveTo`: each axis becomes `Number(arg === null ? old : arg)`. -/
def JPoint.moveTo (p : JPoint) (nx ny : Option JVal) : JPoint :=
  ⟨nx.getD p.x, ny.getD p.y⟩

/-- The `Stroke` class: a color (default "transparent") and a width
(default 1). -/
structure StrokeV where
  color : String := "transparent"
  width : JVal := .num 1
deriving DecidableEq, Repr

/-- A shape object: the state of one `Shape` instance together with the
state of its rendering-surface element.  `type` is the tag passed to the
`Shape` constructor ("text", "rect", "ellipse", "line", "polygon"), which
also selects the subclass's method overrides.  `points[0]` is `p0`
(origin), `points[1]` is `p1` (extent).  `styleFill` models
`domElement.style.fill` (`none` = never set), `textContent` models
`domElement.textContent`, `attrs` the element's attributes.  `polyPoints`
models the Polygon variant's vertex list. -/
structure ShapeV where
  type : String
  name : String
  p0 : JPoint := ⟨.num 0, .num 0⟩
  p1 : JPoint := ⟨.num 100, .num 100⟩
  stroke : StrokeV := {}
  styleFill : Option String := none
  textContent : String := ""
  attrs : List (String × AttrVal) := []
  polyPoints : List JPoint := []
deriving DecidableEq, Repr

/-- Shape factory: the shared `Shape` constructor with origin (0,0),
extent (100,100), default stroke, and a fresh surface element. -/
def mkShape (tag name : String) : ShapeV :=
  { type := tag, name := name }

/-- Dynamic dispatch of `moveBy`: `Circle` and `Line` override the base
`Shape.moveBy`; `Text` and `Rectangle` use the base version. -/
def ShapeV.moveBy (s : ShapeV) (x y : Option JVal) : ShapeV :=
  if s.type = "ellipse" then
    let p := s.p0.moveBy x y
    let a := setAttrL (setAttrL s.attrs "cx" (.anum (.addHalf p.x s.p1.x))) "cy" (.anum (.addHalf p.y s.p1.y))
    { s with p0 := p, attrs := a }
  else if s.type = "line" then
    let p := s.p0.moveBy x y
    let a := setAttrL (setAttrL s.attrs "x1" (.num p.x)) "y1" (.num p.y)
    { s with p0 := p, attrs := a }
  else
    let p := s.p0.moveBy x y
    let a := setAttrL (setAttrL s.attrs "x" (.num p.x)) "y" (.num p.y)
    { s with p0 := p, attrs := a }

/-- Dynamic dispatch of `moveTo`.  Note `Line.moveTo` writes the raw
arguments (possibly null) to the `x1`/`y1` attributes and does not touch
`x2`/`y2`. -/
def ShapeV.moveTo (s : ShapeV) (x y : Option JVal) : ShapeV :=
  if s.type = "ellipse" then
    let p := s.p0.moveTo x y
    let a := setAttrL (setAttrL s.attrs "cx" (.anum (.addHalf p.x s.p1.x))) "cy" (.anum (.addHalf p.y s.p1.y))
    { s with p0 := p, attrs := a }
  else if s.type = "line" then
    let p := s.p0.moveTo x y
    let vx : AttrVal := match x with | none => .anull | some v => .num v
    let vy : AttrVal := match y with | none => .anull | some v => .num v
    let a := setAttrL (setAttrL s.attrs "x1" vx) "y1" vy
    { s with p0 := p, attrs := a }
  else
    let p := s.p0.moveTo x y
    let a := setAttrL (setAttrL s.attrs "x" (.num p.x)) "y" (.num p.y)
    { s with p0 := p, attrs := a }

/-- Dynamic dispatch of `sizeBy`.  `Line.sizeBy` recomputes endpoint 2
from the current origin `points[0]` plus the new extent. -/
def ShapeV.sizeBy (s : ShapeV) (x y : Option JVal) : ShapeV :=
  if s.type = "ellipse" then
    let p := s.p1.moveBy x y
    let a := setAttrL (setAttrL s.attrs "rx" (.anum (.halfOf p.x))) "ry" (.anum (.halfOf p.y))
    { s with p1 := p, attrs := a }
  else if s.type = "line" then
    let p := s.p1.moveBy x y
    let a := setAttrL (setAttrL s.attrs "x2" (.num (s.p0.x.add p.x))) "y2" (.num (s.p0.y.add p.y))
    { s with p1 := p, attrs := a }
  else
    let p := s.p1.moveBy x y
    let a := setAttrL (setAttrL s.attrs "width" (.num p.x)) "height" (.num p.y)
    { s with p1 := p, attrs := a }

/-- Dynamic dispatch of `sizeTo`.  `Line.sizeTo` likewise recomputes
endpoint 2 from the current origin plus the new extent. -/
def ShapeV.sizeTo (s : ShapeV) (x y : Option JVal) : ShapeV :=
  if s.type = "ellipse" then
    let p := s.p1.moveTo x y
    let a := setAttrL (setAttrL s.attrs "rx" (.anum (.halfOf p.x))) "ry" (.anum (.halfOf p.y))
    { s with p1 := p, attrs := a }
  else if s.type = "line" then
    let p := s.p1.moveTo x y
    let a := setAttrL (setAttrL s.attrs "x2" (.num (s.p0.x.add p.x))) "y2" (.num (s.p0.y.add p.y))
    { s with p1 := p, attrs := a }
  else
    let p := s.p1.moveTo x y
    let a := setAttrL (setAttrL s.attrs "width" (.num p.x)) "height" (.num p.y)
    { s with p1 := p, attrs := a }

/-- Method `Shape.setStroke`: replace the stroke wholesale, null components
preserving the prior value, and mirror color and width to the `stroke` and
`stroke-width` attributes. -/
def ShapeV.setStroke (s : ShapeV) (color : Option String) (width : Option JVal) :
    ShapeV :=
  let st : StrokeV := ⟨color.getD s.stroke.color, width.getD s.stroke.width⟩
  let a := setAttrL (setAttrL s.attrs "stroke" (.astr st.color)) "stroke-width" (.num st.width)
  { s with stroke := st, attrs := a }

/-- The `fill` getter: `Line` reads the `stroke` attribute, every other
variant reads `domElement.style.fill`. -/
def ShapeV.getFill (s : ShapeV) : Option String :=
  if s.type = "line" then
    match getAttrL s.attrs "stroke" with
    | some (.astr c) => some c
    | _ => none
  else s.styleFill

/-- The `fill` setter: `Line` writes the `stroke` attribute, every other
variant writes `domElement.style.fill`. -/
def ShapeV.setFill (s : ShapeV) (v : Option String) : ShapeV :=
  if s.type = "line" then
    let av : AttrVal := match v with | some c => .astr c | none => .anull
    { s with attrs := setAttrL s.attrs "stroke" av }
  else { s with styleFill := v }

/-- The `text` setter: replaces `domElement.textContent`. -/
def ShapeV.setText (s : ShapeV) (v : String) : ShapeV :=
  { s with textContent := v }

/-- Runtime error raised by a command handler. -/
inductive JsErr where
  | typeErr : JsErr
deriving DecidableEq, Repr

/-- Calling `object.setPoints(...)` on a shape.  Neither the `iShape`
interface nor the `Shape` base class nor any subclass in
`src/src/public/shape.ts` defines a `setPoints` method, so on the variants
defined there the property is undefined and the call throws a TypeError.
Modelled from the spec: the `Polygon` class is absent from
`src/src/public/shape.ts` although the interpreter imports it; per the
spec its `setPoints` replaces the vertex list. -/
def ShapeV.setPointsM (s : ShapeV) (ps : List JPoint) : Except JsErr ShapeV :=
  if s.type = "polygon" then .ok { s with polyPoints := ps }
  else .error .typeErr

/-- Console log entries.  The interpreter renders each as one line of text;
only the message identity and its interpolated data are modelled, not the
rendered English text or the line-number display. -/
inductive LogMsg where
  | echo (line : String)
  | created (ty name : String)
  | dupName (name : String)
  | invalidName
  | missingType
  | unknownType (ty : String)
  | objectNotFound (name : String)
  | objectNotFoundRemove (name : String)
  | invalidCommand (action : String)
  | painting (name color : String)
  | removing (name : String)
  | wrote (words : List String) (name : String)
  | strokeSet (name color : String) (width : JVal)
  | moved (name : String) (x y : JVal)
  | sized (name : String) (x y : JVal)
  | pointsSet (name : String) (x y : JVal)
  | waiting (tok units : String)
  | timerFinished (tok units : String)
  | duplicated (fromName toName : String)
  | selected (name : String)
deriving DecidableEq, Repr

/-- Interpreter script state: the registry `items` (a name-to-shape map
with JavaScript object-literal semantics, modelled as an insertion-ordered
association list), the current "with" selection, the log sink contents,
and the 1-based line counter. -/
structure Interp where
  items : List (String × ShapeV) := []
  withObjName : Option String := none
  logs : List LogMsg := []
  lineNumber : Nat := 0
deriving DecidableEq, Repr

/-- Registry read `items[k]`.  A JavaScript object binds each key at most
once; on the association list this reads the first (hence only) binding. -/
def objGet : List (String × ShapeV) → String → Option ShapeV
  | [], _ => none
  | p :: t, k => if p.1 = k then some p.2 else objGet t k

/-- Registry write `items[k] = v`: replace the existing binding in place,
or append a new one. -/
def objSet : List (String × ShapeV) → String → ShapeV → List (String × ShapeV)
  | [], k, v => [(k, v)]
  | p :: t, k, v => if p.1 = k then (k, v) :: t else p :: objSet t k v

/-- Registry delete `delete items[k]`. -/
def objDel (m : List (String × ShapeV)) (k : String) : List (String × ShapeV) :=
  m.filter (fun p => p.1 ≠ k)

/-- Append one log line (`log(...)` in the interpreter). -/
def logM (i : Interp) (m : LogMsg) : Interp :=
  { i with logs := i.logs ++ [m] }

/-- The `getItem` helper: returns the shape, or logs "there was no object"
and returns null. -/
def getItemI (k : String) (i : Interp) : Option ShapeV × Interp :=
  match objGet i.items k with
  | some o => (some o, i)
  | none => (none, logM i (.objectNotFound k))

/-- The `objectTypes` table: type keyword to factory.  Keys "circle" and
"ellipse" both build the Circle variant (tag "ellipse"); "rect" and
"rectangle" both build Rectangle (tag "rect").
Modelled from the spec: the `Polygon` class is absent from
`src/src/public/shape.ts` although the interpreter imports `Polygon` from
it; per the spec it is a shape variant rendering from a vertex list, so
the "polygon" key builds a `ShapeV` with tag "polygon" that inherits the
base `Shape` behaviour. -/
def objectTypesF : String → Option (String → ShapeV)
  | "text" => some (mkShape "text")
  | "circle" => some (mkShape "ellipse")
  | "ellipse" => some (mkShape "ellipse")
  | "rectangle" => some (mkShape "rect")
  | "rect" => some (mkShape "rect")
  | "line" => some (mkShape "line")
  | "polygon" => some (mkShape "polygon")
  | _ => none

/-- Whether a type keyword is in the `objectTypes` table. -/
def isObjectType (t : String) : Bool :=
  (objectTypesF t).isSome

/-- The `create` function.  `gen` stands for the result of
`generateName()` — modelled from the spec: `util.ts` is absent from the
sources, the spec says a default name is auto-generated when none is
given; the generated name is passed in as a parameter.  `varNameA` and
`typeA` are the raw tokens (`none` = undefined).  Checks run in source
order: duplicate name, naming rule, missing type, unknown type; on
success the shape is inserted, selected, and returned. -/
def create (gen : String) (varNameA typeA : Option String) (i : Interp) :
    Interp × Option ShapeV :=
  let varName := match varNameA with
    | none => gen
    | some s => if s = "" then gen else s
  match objGet i.items varName with
  | some _ => (logM i (.dupName varName), none)
  | none =>
    if ¬ varNamingRuleTest varName then (logM i .invalidName, none)
    else
      match typeA with
      | none => (logM i .missingType, none)
      | some t =>
        if t = "" then (logM i .missingType, none)
        else
          match objectTypesF t with
          | none => (logM i (.unknownType t), none)
          | some factory =>
            let sh := factory varName
            ({ i with items := objSet i.items varName sh,
                      withObjName := some varName,
                      logs := i.logs ++ [.created t varName] }, some sh)

/-- The `clone` function: look up the source, `create` a shape of the same
type under the target name, then copy origin (`moveTo`), extent
(`sizeTo`), fill and stroke onto the created object (text is not copied);
in-place mutation of the created object is modelled by writing the updated
shape back to its registry key. -/
def clone (gen : String) (fromA toA : Option String) (i : Interp) :
    Interp × Option ShapeV :=
  match getItemI (jsStrU fromA) i with
  | (none, i1) => (i1, none)
  | (some fo, i1) =>
    match create gen toA (some fo.type) i1 with
    | (i2, none) => (i2, none)
    | (i2, some t0) =>
      let t1 := (((t0.moveTo (some fo.p0.x) (some fo.p0.y)).sizeTo
        (some fo.p1.x) (some fo.p1.y)).setFill fo.getFill).setStroke
        (some fo.stroke.color) (some fo.stroke.width)
      ({ i2 with items := objSet i2.items t0.name t1,
                 withObjName := toA,
                 logs := i2.logs ++ [.duplicated (jsStrU fromA) (jsStrU toA)] },
       some t1)

/-- The `paint` function: set `fill`, select the object, log. -/
def paintF (v c : Option String) (i : Interp) : Interp :=
  let k := jsStrU v
  match getItemI k i with
  | (none, i1) => i1
  | (some o, i1) =>
    { i1 with items := objSet i1.items k (o.setFill c),
              withObjName := v,
              logs := i1.logs ++ [.painting k (jsStrU c)] }

/-- The `remove` function: detach and delete both `name` and the legacy
companion key `name.text`; when the object is missing, `getItem` logs once
and `remove` logs again. -/
def removeF (v : Option String) (i : Interp) : Interp :=
  let k := jsStrU v
  match getItemI k i with
  | (some _, i1) =>
    { i1 with items := objDel (objDel i1.items k) (k ++ ".text"),
              logs := i1.logs ++ [.removing k] }
  | (none, i1) => logM i1 (.objectNotFoundRemove k)

/-- The `write` function: join the remaining tokens with spaces into the
text payload. -/
def writeF (v : Option String) (ws : List String) (i : Interp) : Interp :=
  let k := jsStrU v
  match getItemI k i with
  | (none, i1) => i1
  | (some o, i1) =>
    { i1 with items := objSet i1.items k (o.setText (String.intercalate " " ws)),
              logs := i1.logs ++ [.wrote ws k] }

/-- The `setStroke` command helper. -/
def strokeF (v : Option String) (c : Option String) (w : Option JVal)
    (i : Interp) : Interp :=
  let k := jsStrU v
  match getItemI k i with
  | (none, i1) => i1
  | (some o, i1) =>
    let o2 := o.setStroke c w
    { i1 with items := objSet i1.items k o2,
              logs := i1.logs ++ [.strokeSet k (jsStrU c) (w.getD .nan)] }

/-- The `moveTo` command helper (logs the post-move origin). -/
def moveToF (v : Option String) (x y : Option JVal) (i : Interp) : Interp :=
  let k := jsStrU v
  match getItemI k i with
  | (none, i1) => i1
  | (some o, i1) =>
    let o2 := o.moveTo x y
    { i1 with items := objSet i1.items k o2,
              logs := i1.logs ++ [.moved k o2.p0.x o2.p0.y] }

/-- The `moveBy` command helper. -/
def moveByF (v : Option String) (x y : Option JVal) (i : Interp) : Interp :=
  let k := jsStrU v
  match getItemI k i with
  | (none, i1) => i1
  | (some o, i1) =>
    let o2 := o.moveBy x y
    { i1 with items := objSet i1.items k o2,
              logs := i1.logs ++ [.moved k o2.p0.x o2.p0.y] }

/-- The `sizeTo` command helper (logs the post-resize extent). -/
def sizeToF (v : Option String) (x y : Option JVal) (i : Interp) : Interp :=
  let k := jsStrU v
  match getItemI k i with
  | (none, i1) => i1
  | (some o, i1) =>
    let o2 := o.sizeTo x y
    { i1 with items := objSet i1.items k o2,
              logs := i1.logs ++ [.sized k o2.p1.x o2.p1.y] }

/-- The `sizeBy` command helper. -/
def sizeByF (v : Option String) (x y : Option JVal) (i : Interp) : Interp :=
  let k := jsStrU v
  match getItemI k i with
  | (none, i1) => i1
  | (some o, i1) =>
    let o2 := o.sizeBy x y
    { i1 with items := objSet i1.items k o2,
              logs := i1.logs ++ [.sized k o2.p1.x o2.p1.y] }

/-- JavaScript `string.split(sep)` for a single-character separator:
split between every occurrence, keeping empty pieces (so the empty string
splits to `[""]`). -/
def splitChAux (sep : Char) : List Char → List Char → List String
  | [], cur => [⟨cur.reverse⟩]
  | c :: rest, cur =>
    if c = sep then ⟨cur.reverse⟩ :: splitChAux sep rest []
    else splitChAux sep rest (c :: cur)

/-- JavaScript `string.split(sep)` on a whole string. -/
def jsSplit (sep : Char) (s : String) : List String :=
  splitChAux sep s.data []

/-- Parse one `x,y` token of the `points` command:
`new Point(Number(parts[0]), Number(parts[1]))`. -/
def parsePointTok (t : String) : JPoint :=
  let parts := jsSplit ',' t
  ⟨jsNumberU parts.head?, jsNumberU (parts.drop 1).head?⟩

/-- The `setPoints` command helper.  Returns the updated state and whether
the handler threw: `object.setPoints(...)` throws a TypeError on every
variant of `shape.ts` (no class there defines `setPoints`), in which case
the success log line is never reached. -/
def setPointsF (v : Option String) (pts : List String) (i : Interp) :
    Interp × Bool :=
  let k := jsStrU v
  match getItemI k i with
  | (none, i1) => (i1, false)
  | (some o, i1) =>
    match o.setPointsM (pts.map parsePointTok) with
    | .error _ => (i1, true)
    | .ok o2 =>
      ({ i1 with items := objSet i1.items k o2,
                 logs := i1.logs ++ [.pointsSet k o2.p1.x o2.p1.y] }, false)

/-- The `setWith` function backing the `with` command. -/
def setWithF (v : Option String) (i : Interp) : Interp :=
  let k := jsStrU v
  match getItemI k i with
  | (none, i1) => i1
  | (some _, i1) =>
    { i1 with withObjName := v, logs := i1.logs ++ [.selected k] }

/-- The `reset` function's effect on interpreter state: clear the surface
and registry, zero the line counter, deselect.  (Its cancellation of
outstanding timers is a separate effect handled at the run-loop level.) -/
def resetInterp (i : Interp) : Interp :=
  { i with items := [], withObjName := none, lineNumber := 0 }

/-- Effect a command hands back to the line executor. -/
inductive Eff where
  | normal : Eff
  | suspendT (ms : JVal) (tok units : String) : Eff
  | clearT : Eff
deriving DecidableEq, Repr

/-- Result of executing one line: updated state, executor effect, and
whether the handler threw. -/
structure LineOut where
  interp : Interp
  eff : Eff := .normal
  threw : Bool := false
deriving DecidableEq, Repr

/-- Modelled from the spec: `generateName()` lives in the absent
`util.ts`; it yields some default fresh name.  No theorem depends on its
value. -/
def generatedName : String := "object1"

/-- Safe positional token access (`words[n]`, undefined when absent). -/
def nth : List String → Nat → Option String
  | [], _ => none
  | a :: _, 0 => some a
  | _ :: t, n + 1 => nth t n

/-- The keys of the `commands` table. -/
def commandKeys : List String :=
  ["paint", "remove", "new", "clone", "write", "reset", "width", "height",
   "left", "top", "outline", "with", "move", "position", "points", "size",
   "grow", "wait"]

/-- One handler from the `commands` table, applied to the token list
(`words[0]` is the command keyword). -/
def execCmd (act : String) (ws : List String) (i : Interp) : LineOut :=
  match act with
  | "paint" => { interp := paintF (nth ws 1) (nth ws 2) i }
  | "remove" => { interp := removeF (nth ws 1) i }
  | "new" => { interp := (create generatedName (nth ws 2) (nth ws 1) i).1 }
  | "clone" => { interp := (clone generatedName (nth ws 1) (nth ws 2) i).1 }
  | "write" => { interp := writeF (nth ws 1) (ws.drop 2) i }
  | "reset" => { interp := resetInterp i, eff := .clearT }
  | "width" => { interp := sizeToF (nth ws 1) (some (jsNumberU (nth ws 2))) none i }
  | "height" => { interp := sizeToF (nth ws 1) none (some (jsNumberU (nth ws 2))) i }
  | "left" => { interp := moveToF (nth ws 1) (some (jsNumberU (nth ws 2))) none i }
  | "top" => { interp := moveToF (nth ws 1) none (some (jsNumberU (nth ws 2))) i }
  | "outline" =>
    let w3 := jsNumberU (nth ws 3)
    let w := if w3.truthy then w3 else .num 1
    { interp := strokeF (nth ws 1) (nth ws 2) (some w) i }
  | "with" => { interp := setWithF (nth ws 1) i }
  | "move" =>
    { interp := moveByF (nth ws 1) (some (jsNumberU (nth ws 2)))
        (some (jsNumberU (nth ws 3))) i }
  | "position" =>
    { interp := moveToF (nth ws 1) (some (jsNumberU (nth ws 2)))
        (some (jsNumberU (nth ws 3))) i }
  | "points" =>
    let r := setPointsF (nth ws 1) (ws.drop 2) i
    { interp := r.1, threw := r.2 }
  | "size" =>
    { interp := sizeToF (nth ws 1) (some (jsNumberU (nth ws 2)))
        (some (jsNumberU (nth ws 3))) i }
  | "grow" =>
    { interp := sizeByF (nth ws 1) (some (jsNumberU (nth ws 2)))
        (some (jsNumberU (nth ws 3))) i }
  | "wait" =>
    let tok := nth ws 1
    let u := nth ws 2
    let n := jsNumberU tok
    let base := if isSecondsUnit u then "second" else "millisecond"
    let units := if n.gtOne then base ++ "s" else base
    { interp := logM i (.waiting (jsStrU tok) units),
      eff := .suspendT (waitMsOfNum n u) (jsStrU tok) units }
  | _ => { interp := i }

/-- Whether a line starts with whitespace (`/^\s/.test(line)`). -/
def startsWithWS (line : String) : Bool :=
  match line.data with
  | c :: _ => c.isWhitespace
  | [] => false

/-- JavaScript `array.splice(1, 0, x)` on a token array. -/
def splice1 (x : String) : List String → List String
  | [] => [x]
  | h :: t => h :: x :: t

/-- JavaScript `string.trim()`: drop whitespace from both ends. -/
def trimStr (s : String) : String :=
  ⟨(((s.data.dropWhile Char.isWhitespace).reverse).dropWhile
      Char.isWhitespace).reverse⟩

/-- Trim the line and split on single spaces (JavaScript
`line.trim().split(' ')`, which keeps empty tokens between consecutive
spaces), then drop tokens equal to the banned word `" "` (none can occur,
as in the source). -/
def tokensOf (line : String) : List String :=
  (jsSplit ' ' (trimStr line)).filter (fun w => w ≠ " ")

/-- The `cleanCommand` tokenizer: tokenize the trimmed line; if the line
began with whitespace, splice `String(withObjName)` in at position 1. -/
def cleanCommand (line : String) (withName : Option String) : List String :=
  if startsWithWS line then splice1 (jsStrN withName) (tokensOf line)
  else tokensOf line

/-- Command resolution and execution for a tokenized line (the body of the
`render` loop after the echo): `action` is `words[0]`, or `words[1]` when
`words[0]` is the single-space string; unknown actions log "Invalid
command". -/
def execWords (ws : List String) (i : Interp) : LineOut :=
  let action := if nth ws 0 = some " " then nth ws 1 else nth ws 0
  match action with
  | some a =>
    if a ∈ commandKeys then execCmd a ws i
    else { interp := logM i (.invalidCommand a) }
  | none => { interp := logM i (.invalidCommand "undefined") }

/-- Per-line processing of the `render` loop: increment the line counter,
skip empty lines, echo the raw line, tokenize, resolve and execute. -/
def execLine (line : String) (i : Interp) : LineOut :=
  let i1 : Interp := { i with lineNumber := i.lineNumber + 1 }
  if line = "" then { interp := i1 }
  else execWords (cleanCommand line i1.withObjName) (logM i1 (.echo line))

/-- An outstanding `setTimeout` delay: host timer id, delay in
milliseconds, the interpolation data for the "timer finished" log line,
and the continuation — the lines remaining after the `wait`. -/
structure Timer where
  id : Nat
  ms : JVal
  tok : String
  units : String
  rest : List String
deriving DecidableEq, Repr

/-- Whole-system state: interpreter state, outstanding timers (the
`timers` list restricted to not-yet-fired, not-yet-cleared handles —
clearing an already-fired handle is a host no-op), and the host's
monotone timer-id counter. -/
structure Sys where
  interp : Interp := {}
  pending : List Timer := []
  nextId : Nat := 0
deriving DecidableEq, Repr

/-- Modelled from the spec: `forEachPromise` lives in the absent
`util.ts`; per the spec the lines run strictly in sequence, a `wait`
suspends the whole sequence until its timer elapses (registering the
remaining lines as the timer's continuation), a thrown handler error
rejects the chain so the remaining lines never run, and the mid-script
`reset` command cancels all outstanding timers. -/
def runLines : List String → Sys → Sys
  | [], sys => sys
  | l :: rest, sys =>
    let out := execLine l sys.interp
    if out.threw then { sys with interp := out.interp }
    else
      match out.eff with
      | .normal => runLines rest { sys with interp := out.interp }
      | .clearT => runLines rest { sys with interp := out.interp, pending := [] }
      | .suspendT ms tok units =>
        { sys with interp := out.interp,
                   pending := sys.pending ++ [⟨sys.nextId, ms, tok, units, rest⟩],
                   nextId := sys.nextId + 1 }

/-- External events: the run button (with the script's lines), or the
host firing a timer id. -/
inductive Ev where
  | runScript (lines : List String) : Ev
  | fire (id : Nat) : Ev

/-- One system step.  `render` first performs a full `reset` — clearing
the registry, selection, line counter and every outstanding timer — and
clears the console, then executes the lines.  Firing a timer id that is
still outstanding logs "timer finished" and resumes that run's remaining
lines; firing a cancelled or spent id does nothing. -/
def step (sys : Sys) : Ev → Sys
  | .runScript lines =>
    runLines lines { interp := {}, pending := [], nextId := sys.nextId }
  | .fire id =>
    match sys.pending.find? (fun t => t.id = id) with
    | none => sys
    | some t =>
      runLines t.rest
        { sys with interp := logM sys.interp (.timerFinished t.tok t.units),
                   pending := sys.pending.filter (fun t2 => t2.id ≠ id) }

/-- Iterated system steps. -/
def steps (sys : Sys) (evs : List Ev) : Sys :=
  evs.foldl step sys
theorem objGet_objSet_self (m : List (String × ShapeV)) (k : String) (v : ShapeV) :
    objGet (objSet m k v) k = some v := by
  induction m with
  | nil => simp [objGet, objSet]
  | cons p t ih =>
    by_cases h : p.1 = k <;> simp [objGet, objSet, h, ih]

theorem objGet_objSet_ne (m : List (String × ShapeV)) (k k2 : String) (v : ShapeV)
    (hne : k2 ≠ k) :
    objGet (objSet m k v) k2 = objGet m k2 := by
  have hk2 : ¬ (k = k2) := fun hc => hne hc.symm
  induction m with
  | nil =>
    simp only [objSet, objGet, if_neg hk2]
  | cons p t ih =>
    by_cases h : p.1 = k
    · have hp2 : ¬ (p.1 = k2) := by rw [h]; exact hk2
      simp only [objSet, if_pos h, objGet, if_neg hk2, if_neg hp2]
    · by_cases h2 : p.1 = k2
      · simp only [objSet, if_neg h, objGet, if_pos h2]
      · simp only [objSet, if_neg h, objGet, if_neg h2, ih]

theorem getAttrL_setAttrL_self (l : List (String × AttrVal)) (k : String) (v : AttrVal) :
    getAttrL (setAttrL l k v) k = some v := by
  induction l with
  | nil => simp [getAttrL, setAttrL]
  | cons p t ih =>
    by_cases h : p.1 = k <;> simp [getAttrL, setAttrL, h, ih]

theorem getAttrL_setAttrL_ne (l : List (String × AttrVal)) (k k2 : String) (v : AttrVal)
    (hne : k2 ≠ k) :
    getAttrL (setAttrL l k v) k2 = getAttrL l k2 := by
  have hk2 : ¬ (k = k2) := fun hc => hne hc.symm
  induction l with
  | nil =>
    simp only [setAttrL, getAttrL, if_neg hk2]
  | cons p t ih =>
    by_cases h : p.1 = k
    · have hp2 : ¬ (p.1 = k2) := by rw [h]; exact hk2
      simp only [setAttrL, if_pos h, getAttrL, if_neg hk2, if_neg hp2]
    · by_cases h2 : p.1 = k2
      · simp only [setAttrL, if_neg h, getAttrL, if_pos h2]
      · simp only [setAttrL, if_neg h, getAttrL, if_neg h2, ih]

/-- Empty starting interpreter state. -/
def emptyInterp : Interp := {}

/-- Interpreter state holding a single default rectangle named "rr"
(created by `new rectangle rr`). -/
def rrState : Interp := (create generatedName (some "rr") (some "rectangle") emptyInterp).1

/-- C2: the claim says `create` accepts a name exactly when it starts with
a letter and continues with letters, digits or underscores, and that
`1abc` is rejected with InvalidName.  Evaluating the code at the failing
input: `varNamingRule` is unanchored, `1abc` passes the test, and
`create` happily creates and registers a rectangle named `1abc`. -/
theorem create_accepts_1abc :
    varNamingRuleTest "1abc" = true ∧
    (create "gen1" (some "1abc") (some "rectangle") emptyInterp).2 =
      some (mkShape "rect" "1abc") ∧
    objGet (create "gen1" (some "1abc") (some "rectangle") emptyInterp).1.items
      "1abc" = some (mkShape "rect" "1abc") ∧
    (create "gen1" (some "1abc") (some "rectangle") emptyInterp).1.logs =
      [.created "rectangle" "1abc"] ∧
    varNamingRuleTest "ab" = true ∧ varNamingRuleTest "a" = false := by
  refine ⟨by decide, by decide, by decide, by decide, by decide, by decide⟩

/-- C3: creating under a name already bound in the registry logs the
duplicate-name message, returns nothing, and leaves the registry mapping
unchanged.  (`name ≠ ""` because an empty name is replaced by a generated
one before the lookup; no registry reachable by the interpreter binds the
empty string.) -/
theorem create_duplicate_rejected (gen name : String) (ty : Option String)
    (i : Interp) (sh : ShapeV) (hne : name ≠ "")
    (h : objGet i.items name = some sh) :
    (create gen (some name) ty i).1.items = i.items ∧
    (create gen (some name) ty i).1.logs = i.logs ++ [.dupName name] ∧
    (create gen (some name) ty i).1.withObjName = i.withObjName ∧
    (create gen (some name) ty i).2 = none := by
  have he : create gen (some name) ty i = (logM i (.dupName name), none) := by
    unfold create
    simp only [if_neg hne, h]
  rw [he]
  exact ⟨rfl, rfl, rfl, rfl⟩

/-- Witness for `create_duplicate_rejected` at a concrete registry. -/
theorem create_duplicate_rejected_witness :
    ("ab" ≠ "" ∧
     objGet [("ab", mkShape "rect" "ab")] "ab" = some (mkShape "rect" "ab")) ∧
    ((create "gen1" (some "ab") (some "text")
        { items := [("ab", mkShape "rect" "ab")] }).1.items =
      [("ab", mkShape "rect" "ab")] ∧
     (create "gen1" (some "ab") (some "text")
        { items := [("ab", mkShape "rect" "ab")] }).1.logs =
      [] ++ [.dupName "ab"] ∧
     (create "gen1" (some "ab") (some "text")
        { items := [("ab", mkShape "rect" "ab")] }).1.withObjName = none ∧
     (create "gen1" (some "ab") (some "text")
        { items := [("ab", mkShape "rect" "ab")] }).2 = none) :=
  ⟨⟨by decide, by decide⟩,
   create_duplicate_rejected "gen1" "ab" (some "text")
     { items := [("ab", mkShape "rect" "ab")] } (mkShape "rect" "ab")
     (by decide) (by decide)⟩

/-- C10: the duplicate check in `create` runs before the naming-rule
check, so a name that is both taken and invalid is reported as a
duplicate (the "already an object" message), not as InvalidName, and the
registry is unchanged. -/
theorem create_duplicate_check_first (gen name : String) (ty : Option String)
    (i : Interp) (sh : ShapeV) (hne : name ≠ "")
    (hinv : varNamingRuleTest name = false)
    (h : objGet i.items name = some sh) :
    (create gen (some name) ty i).1.items = i.items ∧
    (create gen (some name) ty i).1.logs = i.logs ++ [.dupName name] ∧
    (create gen (some name) ty i).1.logs ≠ i.logs ++ [.invalidName] ∧
    (create gen (some name) ty i).2 = none := by
  have he : create gen (some name) ty i = (logM i (.dupName name), none) := by
    unfold create
    simp only [if_neg hne, h]
  rw [he]
  refine ⟨rfl, rfl, ?_, rfl⟩
  simp [logM]

/-- Witness for `create_duplicate_check_first`: the name `a!` matches no
two-character run of the naming rule, yet the reported failure for a
registry already binding `a!` is the duplicate message. -/
theorem create_duplicate_check_first_witness :
    ("a!" ≠ "" ∧ varNamingRuleTest "a!" = false ∧
     objGet [("a!", mkShape "rect" "a!")] "a!" = some (mkShape "rect" "a!")) ∧
    ((create "gen1" (some "a!") (some "text")
        { items := [("a!", mkShape "rect" "a!")] }).1.items =
      [("a!", mkShape "rect" "a!")] ∧
     (create "gen1" (some "a!") (some "text")
        { items := [("a!", mkShape "rect" "a!")] }).1.logs =
      [] ++ [.dupName "a!"] ∧
     (create "gen1" (some "a!") (some "text")
        { items := [("a!", mkShape "rect" "a!")] }).1.logs ≠
      [] ++ [LogMsg.invalidName] ∧
     (create "gen1" (some "a!") (some "text")
        { items := [("a!", mkShape "rect" "a!")] }).2 = none) :=
  ⟨⟨by decide, by decide, by decide⟩,
   create_duplicate_check_first "gen1" "a!" (some "text")
     { items := [("a!", mkShape "rect" "a!")] } (mkShape "rect" "a!")
     (by decide) (by decide) (by decide)⟩

/-- C4 counterexample: with a seconds unit and a non-positive or missing
`N`, the suspension is 1,000,000 ms (the 1000 default is applied before
the unit factor), not the 1000 ms the claim states. -/
theorem wait_default_seconds_cex :
    waitMsOfNum (jsNumberU none) (some "seconds") = .num 1000000 ∧
    waitMsOfNum (.num 0) (some "seconds") = .num 1000000 ∧
    waitMsOfNum (.num (-5)) (some "s") = .num 1000000 ∧
    JVal.num 1000000 ≠ JVal.num 1000 := by
  refine ⟨by decide, by decide, by decide, by decide⟩

/-- C4 amended: `wait N [unit]` suspends for `N` ms with no matching unit
token and `N * 1000` ms when the unit matches second(s)/sec/s
case-insensitively, for positive `N`; a non-positive or missing `N` is
replaced by 1000 *before* the unit factor applies, giving 1000 ms without
a unit and 1,000,000 ms with a seconds unit. -/
theorem wait_semantics (n : Int) (u : Option String) (v : JVal) :
    (0 < n → isSecondsUnit u = false → waitMsOfNum (.num n) u = .num n) ∧
    (0 < n → isSecondsUnit u = true → waitMsOfNum (.num n) u = .num (n * 1000)) ∧
    (v.pos = false → waitMsOfNum v none = .num 1000) ∧
    (v.pos = false → isSecondsUnit u = true → waitMsOfNum v u = .num 1000000) ∧
    isSecondsUnit (some "SeCoNdS") = true ∧
    isSecondsUnit (some "sec") = true ∧
    isSecondsUnit (some "s") = true ∧
    isSecondsUnit none = false ∧
    jsNumberU none = .nan ∧
    JVal.pos .nan = false := by
  refine ⟨?_, ?_, ?_, ?_, by decide, by decide, by decide, by decide, by decide,
    by decide⟩
  · intro hn hu
    have hp : JVal.pos (.num n) = true := by simp [JVal.pos, hn]
    simp [waitMsOfNum, hu, hp, JVal.mul]
  · intro hn hu
    have hp : JVal.pos (.num n) = true := by simp [JVal.pos, hn]
    simp [waitMsOfNum, hu, hp, JVal.mul]
  · intro hv
    simp [waitMsOfNum, hv, isSecondsUnit, JVal.mul]
  · intro hv hu
    simp [waitMsOfNum, hv, hu, JVal.mul]

/-- Witness for `wait_semantics`: `wait 2` is 2 ms, `wait 2 seconds` is
2000 ms, `wait` alone is 1000 ms. -/
theorem wait_semantics_witness :
    waitMsOfNum (.num 2) none = .num 2 ∧
    waitMsOfNum (.num 2) (some "seconds") = .num 2000 ∧
    waitMsOfNum (jsNumberU none) none = .num 1000 :=
  ⟨(wait_semantics 2 none .nan).1 (by decide) (by decide),
   (wait_semantics 2 (some "seconds") .nan).2.1 (by decide) (by decide),
   (wait_semantics 2 none (jsNumberU none)).2.2.1 (by decide)⟩

/-- C5 counterexample: `Number("abc")` is NaN, and `Point.moveBy` with a
NaN axis is not a no-op — the coordinate becomes NaN — whereas a null
axis argument leaves it unchanged; the `move` command on a registered
rectangle at the origin turns its x into NaN. -/
theorem nan_not_noop_cex :
    jsNumber "abc" = .nan ∧
    ((JPoint.mk (.num 0) (.num 0)).moveBy (some .nan) none).x = .nan ∧
    ((JPoint.mk (.num 0) (.num 0)).moveBy none none).x = .num 0 ∧
    JVal.nan ≠ JVal.num 0 ∧
    (objGet (execWords ["move", "rr", "abc", "5"] rrState).interp.items "rr").map
      (fun s => s.p0.x) = some .nan := by
  refine ⟨by decide, by decide, by decide, by decide, by decide⟩

/-- C5 amended: invalid numeric text parses to NaN, but the Point
operations do not treat NaN as a no-op: `moveBy` adds NaN (the axis
becomes NaN) and `moveTo` stores NaN; only a null argument leaves the
axis unchanged. -/
theorem nan_propagates (x y : JVal) :
    (JPoint.mk x y).moveBy (some .nan) none = ⟨.nan, y⟩ ∧
    (JPoint.mk x y).moveTo (some .nan) none = ⟨.nan, y⟩ ∧
    (JPoint.mk x y).moveBy none none = ⟨x, y⟩ ∧
    (JPoint.mk x y).moveTo none none = ⟨x, y⟩ := by
  refine ⟨?_, ?_, ?_, ?_⟩ <;>
    cases x <;> cases y <;> simp [JPoint.moveBy, JPoint.moveTo, JVal.add]

/-- Default line shape used in the Line endpoint analysis. -/
def lineL0 : ShapeV := mkShape "line" "ln"

/-- C6 counterexample: after `moveTo (10,20)` then `sizeTo (50,60)` on a
fresh line, the endpoint-2 attribute `x2` is 60 = 10 + 50, computed from
the *post-move* origin, not 50 = 0 + 50 as the claim's "pre-move origin"
reading predicts (and `y2` is 80, not 60). -/
theorem line_sizeTo_postmove_cex :
    getAttrL ((lineL0.moveTo (some (.num 10)) (some (.num 20))).sizeTo
      (some (.num 50)) (some (.num 60))).attrs "x2" = some (.anum (.int 60)) ∧
    getAttrL ((lineL0.moveTo (some (.num 10)) (some (.num 20))).sizeTo
      (some (.num 50)) (some (.num 60))).attrs "y2" = some (.anum (.int 80)) ∧
    (some (AttrVal.anum (.int 60)) ≠ some (AttrVal.anum (.int 50))) ∧
    (some (AttrVal.anum (.int 80)) ≠ some (AttrVal.anum (.int 60))) := by
  refine ⟨by decide, by decide, by decide, by decide⟩

/-- C6 amended: on a Line, `moveTo` writes the given absolute coordinates
to the endpoint-1 attributes, updates the stored origin, and leaves the
endpoint-2 attributes untouched (they stay stale until the next size
operation); `sizeTo` recomputes endpoint 2 as origin-at-call-time plus
the new extent — after a move, that is the post-move origin. -/
theorem line_move_size_semantics (s : ShapeV) (h : s.type = "line") (x y : JVal) :
    getAttrL (s.moveTo (some x) (some y)).attrs "x1" = some (.anum (.ofJVal x)) ∧
    getAttrL (s.moveTo (some x) (some y)).attrs "y1" = some (.anum (.ofJVal y)) ∧
    getAttrL (s.moveTo (some x) (some y)).attrs "x2" = getAttrL s.attrs "x2" ∧
    getAttrL (s.moveTo (some x) (some y)).attrs "y2" = getAttrL s.attrs "y2" ∧
    (s.moveTo (some x) (some y)).p0 = ⟨x, y⟩ ∧
    (∀ w h2 : JVal,
      getAttrL ((s.moveTo (some x) (some y)).sizeTo (some w) (some h2)).attrs
        "x2" = some (.anum (.ofJVal (x.add w))) ∧
      getAttrL ((s.moveTo (some x) (some y)).sizeTo (some w) (some h2)).attrs
        "y2" = some (.anum (.ofJVal (y.add h2))) ∧
      ((s.moveTo (some x) (some y)).sizeTo (some w) (some h2)).p1 = ⟨w, h2⟩) := by
  have hne : s.type ≠ "ellipse" := by rw [h]; decide
  simp only [ShapeV.moveTo, ShapeV.sizeTo, if_neg hne, if_pos h, JPoint.moveTo]
  refine ⟨?_, ?_, ?_, ?_, rfl, ?_⟩
  · rw [getAttrL_setAttrL_ne _ _ _ _ (by decide), getAttrL_setAttrL_self]
    rfl
  · rw [getAttrL_setAttrL_self]
    rfl
  · rw [getAttrL_setAttrL_ne _ _ _ _ (by decide),
      getAttrL_setAttrL_ne _ _ _ _ (by decide)]
  · rw [getAttrL_setAttrL_ne _ _ _ _ (by decide),
      getAttrL_setAttrL_ne _ _ _ _ (by decide)]
  · intro w h2
    refine ⟨?_, ?_, rfl⟩
    · rw [getAttrL_setAttrL_ne _ _ _ _ (by decide), getAttrL_setAttrL_self]
      rfl
    · rw [getAttrL_setAttrL_self]
      rfl

/-- Witness for `line_move_size_semantics` on a concrete fresh line. -/
theorem line_move_size_semantics_witness :
    lineL0.type = "line" ∧
    getAttrL (lineL0.moveTo (some (.num 10)) (some (.num 20))).attrs "x1" =
      some (.anum (.int 10)) ∧
    getAttrL (lineL0.moveTo (some (.num 10)) (some (.num 20))).attrs "x2" =
      getAttrL lineL0.attrs "x2" :=
  ⟨by decide,
   by
     have := (line_move_size_semantics lineL0 (by decide) (.num 10) (.num 20)).1
     simpa using this,
   (line_move_size_semantics lineL0 (by decide) (.num 10) (.num 20)).2.2.1⟩

/-- Interpreter state after `new rectangle background` on an empty state. -/
def bgState : Interp :=
  (create generatedName (some "background") (some "rectangle") emptyInterp).1

/-- C7: a line beginning with whitespace has `String(withObjName)` spliced
in as the command's first argument, so after `new rectangle background`
(which selects `background`), `  paint black` tokenizes and executes
exactly as `paint background black` does. -/
theorem leading_space_inserts_selection (line : String) (w : Option String)
    (h : startsWithWS line = true) :
    cleanCommand line w = splice1 (jsStrN w) (tokensOf line) ∧
    bgState.withObjName = some "background" ∧
    cleanCommand "  paint black" bgState.withObjName =
      ["paint", "background", "black"] ∧
    cleanCommand "paint background black" bgState.withObjName =
      ["paint", "background", "black"] ∧
    (∀ i : Interp, execWords (cleanCommand "  paint black" bgState.withObjName) i =
      execWords (cleanCommand "paint background black" bgState.withObjName) i) ∧
    (objGet (execWords (cleanCommand "  paint black" bgState.withObjName)
        bgState).interp.items "background").map (fun s => s.styleFill) =
      some (some "black") := by
  refine ⟨?_, by decide, by decide, by decide, ?_, by decide⟩
  · unfold cleanCommand
    rw [if_pos h]
  · intro i
    rw [show cleanCommand "  paint black" bgState.withObjName =
        ["paint", "background", "black"] from by decide,
      show cleanCommand "paint background black" bgState.withObjName =
        ["paint", "background", "black"] from by decide]

/-- Witness for `leading_space_inserts_selection` at a concrete indented
line. -/
theorem leading_space_inserts_selection_witness :
    startsWithWS "  size 640 480" = true ∧
    cleanCommand "  size 640 480" (some "background") =
      ["size", "background", "640", "480"] :=
  ⟨by decide,
   ((leading_space_inserts_selection "  size 640 480" (some "background")
      (by decide)).1).trans (by decide)⟩

/-- The initial whole-system state (page load, before any run). -/
def sys0 : Sys := {}

/-- C1: the claim says no exception ever escapes a command handler, and in
particular that `points` on an existing shape completes without throwing.
Evaluating the code at the failing input: no class in `shape.ts` defines
`setPoints` (the `iShape` interface does not declare it), so on a
registered rectangle the `points` handler throws, and in the promise-chained
run the remaining lines never execute — after
`new rectangle rr; points rr 10,20; paint rr red` the rectangle is still
unpainted and the log ends at the echo of the `points` line. -/
theorem points_handler_throws :
    (objGet rrState.items "rr").isSome = true ∧
    (execWords ["points", "rr", "10,20"] rrState).threw = true ∧
    (objGet (step sys0 (.runScript
        ["new rectangle rr", "points rr 10,20", "paint rr red"])).interp.items
        "rr").map ShapeV.getFill = some none ∧
    (step sys0 (.runScript
        ["new rectangle rr", "points rr 10,20", "paint rr red"])).interp.logs =
      [.echo "new rectangle rr", .created "rectangle" "rr",
       .echo "points rr 10,20"] := by
  refine ⟨by decide, by decide, by decide, by decide⟩

/-- A shape's constructor type tag: the five values the factories pass to
the `Shape` constructor. -/
def isTypeTag (t : String) : Bool :=
  t = "text" || t = "rect" || t = "ellipse" || t = "line" || t = "polygon"

theorem paintF_preserves_other (a b : String) (c : Option String) (i : Interp)
    (hab : a ≠ b) :
    objGet (paintF (some a) c i).items b = objGet i.items b := by
  unfold paintF getItemI
  cases h : objGet i.items (jsStrU (some a)) with
  | none => simp [h, logM]
  | some o =>
    simp [h]
    exact objGet_objSet_ne _ _ _ _ (fun hc => hab hc.symm)

theorem moveByF_preserves_other (a b : String) (x y : Option JVal) (i : Interp)
    (hab : a ≠ b) :
    objGet (moveByF (some a) x y i).items b = objGet i.items b := by
  unfold moveByF getItemI
  cases h : objGet i.items (jsStrU (some a)) with
  | none => simp [h, logM]
  | some o =>
    simp [h]
    exact objGet_objSet_ne _ _ _ _ (fun hc => hab hc.symm)

theorem moveToF_preserves_other (a b : String) (x y : Option JVal) (i : Interp)
    (hab : a ≠ b) :
    objGet (moveToF (some a) x y i).items b = objGet i.items b := by
  unfold moveToF getItemI
  cases h : objGet i.items (jsStrU (some a)) with
  | none => simp [h, logM]
  | some o =>
    simp [h]
    exact objGet_objSet_ne _ _ _ _ (fun hc => hab hc.symm)

theorem sizeToF_preserves_other (a b : String) (x y : Option JVal) (i : Interp)
    (hab : a ≠ b) :
    objGet (sizeToF (some a) x y i).items b = objGet i.items b := by
  unfold sizeToF getItemI
  cases h : objGet i.items (jsStrU (some a)) with
  | none => simp [h, logM]
  | some o =>
    simp [h]
    exact objGet_objSet_ne _ _ _ _ (fun hc => hab hc.symm)

theorem sizeByF_preserves_other (a b : String) (x y : Option JVal) (i : Interp)
    (hab : a ≠ b) :
    objGet (sizeByF (some a) x y i).items b = objGet i.items b := by
  unfold sizeByF getItemI
  cases h : objGet i.items (jsStrU (some a)) with
  | none => simp [h, logM]
  | some o =>
    simp [h]
    exact objGet_objSet_ne _ _ _ _ (fun hc => hab hc.symm)

theorem strokeF_preserves_other (a b : String) (c : Option String)
    (w : Option JVal) (i : Interp) (hab : a ≠ b) :
    objGet (strokeF (some a) c w i).items b = objGet i.items b := by
  unfold strokeF getItemI
  cases h : objGet i.items (jsStrU (some a)) with
  | none => simp [h, logM]
  | some o =>
    simp [h]
    exact objGet_objSet_ne _ _ _ _ (fun hc => hab hc.symm)

/-- Rectangle named `ab` moved to (5,5), for the clone counterexample. -/
def shAB5 : ShapeV := (mkShape "rect" "ab").moveTo (some (.num 5)) (some (.num 5))

/-- Registry holding `ab` (at (5,5)) and a default `cd`. -/
def stABCD : Interp := { items := [("ab", shAB5), ("cd", mkShape "rect" "cd")] }

/-- Registry holding one line named `ln` painted red. -/
def stLN : Interp := paintF (some "ln") (some "red")
  { items := [("ln", mkShape "line" "ln")] }

/-- C8 counterexample: (1) when the target name already names a shape,
`clone` produces nothing and the old shape keeps its state, so the claim
fails for such pairs; (2) for a Line, the fill copy is overwritten by the
subsequent stroke copy, so the clone's fill is the source's stroke color
("transparent"), not the source's fill ("red"). -/
theorem clone_cex :
    ((clone "gen1" (some "ab") (some "cd") stABCD).2 = none ∧
     objGet (clone "gen1" (some "ab") (some "cd") stABCD).1.items "cd" =
       some (mkShape "rect" "cd") ∧
     (mkShape "rect" "cd").p0 ≠ shAB5.p0) ∧
    ((clone "gen1" (some "ln") (some "l2") stLN).2.map ShapeV.getFill =
       some (some "transparent") ∧
     (objGet stLN.items "ln").map ShapeV.getFill = some (some "red") ∧
     (some (some "transparent") : Option (Option String)) ≠ some (some "red")) := by
  refine ⟨⟨by decide, by decide, by decide⟩, ⟨by decide, by decide, by decide⟩⟩

/-- C8 amended: for distinct valid names `a`, `b` with `a` bound and `b`
unbound, `clone` produces a fresh shape named `b` of the same type whose
origin, extent and stroke equal `a`'s at clone time; the fill equals
`a`'s for non-Line types, while for a Line it ends up equal to `a`'s
stroke color (the stroke copy overwrites the line's fill attribute); text
is not copied.  Afterwards each mutation of `a` (move, size, paint,
stroke) leaves `b`'s registry entry unchanged. -/
theorem clone_copies_and_isolates (gen a b : String) (i : Interp) (sh : ShapeV)
    (hab : a ≠ b) (hbne : b ≠ "") (hbrule : varNamingRuleTest b = true)
    (ha : objGet i.items a = some sh) (hb : objGet i.items b = none)
    (htag : isTypeTag sh.type = true) :
    ∃ bsh : ShapeV,
      (clone gen (some a) (some b) i).2 = some bsh ∧
      objGet (clone gen (some a) (some b) i).1.items b = some bsh ∧
      objGet (clone gen (some a) (some b) i).1.items a = some sh ∧
      bsh.type = sh.type ∧ bsh.name = b ∧
      bsh.p0 = sh.p0 ∧ bsh.p1 = sh.p1 ∧
      bsh.stroke = sh.stroke ∧
      (sh.type ≠ "line" → bsh.getFill = sh.getFill) ∧
      (sh.type = "line" → bsh.getFill = some sh.stroke.color) ∧
      bsh.textContent = "" ∧
      (∀ (i2 : Interp) (c : Option String), objGet i2.items b = some bsh →
        objGet (paintF (some a) c i2).items b = some bsh) ∧
      (∀ (i2 : Interp) (x y : Option JVal), objGet i2.items b = some bsh →
        objGet (moveByF (some a) x y i2).items b = some bsh) ∧
      (∀ (i2 : Interp) (x y : Option JVal), objGet i2.items b = some bsh →
        objGet (moveToF (some a) x y i2).items b = some bsh) ∧
      (∀ (i2 : Interp) (x y : Option JVal), objGet i2.items b = some bsh →
        objGet (sizeToF (some a) x y i2).items b = some bsh) ∧
      (∀ (i2 : Interp) (x y : Option JVal), objGet i2.items b = some bsh →
        objGet (sizeByF (some a) x y i2).items b = some bsh) ∧
      (∀ (i2 : Interp) (c : Option String) (w : Option JVal),
        objGet i2.items b = some bsh →
        objGet (strokeF (some a) c w i2).items b = some bsh) := by
  obtain ⟨ty, nm, p0, p1, stk, sf, tc, at0, pp⟩ := sh
  have htags : (((ty = "text" ∨ ty = "rect") ∨ ty = "ellipse") ∨ ty = "line") ∨
      ty = "polygon" := by
    simpa [isTypeTag] using htag
  rcases htags with ((((h | h) | h) | h) | h) <;> subst h <;>
    refine ⟨(clone gen (some a) (some b) i).2.getD (mkShape "zz" "zz"), ?_⟩ <;>
    unfold clone getItemI create <;>
    rw [show jsStrU (some a) = a from rfl, ha] <;>
    dsimp only <;>
    rw [if_neg hbne, hb, hbrule] <;>
    dsimp only <;>
    refine ⟨rfl, objGet_objSet_self _ _ _,
      (objGet_objSet_ne _ _ _ _ hab).trans
        ((objGet_objSet_ne _ _ _ _ hab).trans ha),
      rfl, rfl, rfl, rfl, rfl, ?_, ?_, rfl,
      (fun i2 c hh => by rw [paintF_preserves_other _ _ _ _ hab]; exact hh),
      (fun i2 x y hh => by rw [moveByF_preserves_other _ _ _ _ _ hab]; exact hh),
      (fun i2 x y hh => by rw [moveToF_preserves_other _ _ _ _ _ hab]; exact hh),
      (fun i2 x y hh => by rw [sizeToF_preserves_other _ _ _ _ _ hab]; exact hh),
      (fun i2 x y hh => by rw [sizeByF_preserves_other _ _ _ _ _ hab]; exact hh),
      (fun i2 c w hh => by rw [strokeF_preserves_other _ _ _ _ _ hab]; exact hh)⟩ <;>
    intro h2 <;>
    first
      | rfl
      | exact absurd rfl h2
      | exact absurd h2 (by decide)

/-- Registry holding just `ab` (a rectangle at (5,5)). -/
def stAB : Interp := { items := [("ab", shAB5)] }

/-- Witness for `clone_copies_and_isolates` at a concrete registry. -/
theorem clone_copies_and_isolates_witness :
    ("ab" ≠ "cd" ∧ "cd" ≠ "" ∧ varNamingRuleTest "cd" = true ∧
     objGet stAB.items "ab" = some shAB5 ∧ objGet stAB.items "cd" = none ∧
     isTypeTag shAB5.type = true) ∧
    (∃ bsh : ShapeV,
      (clone "gen1" (some "ab") (some "cd") stAB).2 = some bsh ∧
      bsh.p0 = shAB5.p0 ∧ bsh.p1 = shAB5.p1 ∧ bsh.stroke = shAB5.stroke) :=
  ⟨⟨by decide, by decide, by decide, by decide, by decide, by decide⟩,
   by
     obtain ⟨bsh, h1, _, _, _, _, hp0, hp1, hstk, _⟩ :=
       clone_copies_and_isolates "gen1" "ab" "cd" stAB shAB5 (by decide)
         (by decide) (by decide) (by decide) (by decide) (by decide)
     exact ⟨bsh, h1, hp0, hp1, hstk⟩⟩

/-- The ids of the outstanding timers. -/
def pendingIds (sys : Sys) : List Nat :=
  sys.pending.map (fun t => t.id)

theorem runLines_keeps_cancelled (lines : List String) (sys : Sys) (t : Nat)
    (h1 : t ∉ pendingIds sys) (h2 : t < sys.nextId) :
    t ∉ pendingIds (runLines lines sys) ∧ t < (runLines lines sys).nextId := by
  induction lines generalizing sys with
  | nil => exact ⟨h1, h2⟩
  | cons l rest ih =>
    simp only [runLines]
    split
    · exact ⟨h1, h2⟩
    · split
      · exact ih _ h1 h2
      · exact ih _ (by simp [pendingIds]) h2
      · constructor
        · simp only [pendingIds, List.map_append, List.mem_append]
          rintro (hh | hh)
          · exact h1 hh
          · simp at hh
            omega
        · simp
          omega

theorem step_keeps_cancelled (sys : Sys) (ev : Ev) (t : Nat)
    (h1 : t ∉ pendingIds sys) (h2 : t < sys.nextId) :
    t ∉ pendingIds (step sys ev) ∧ t < (step sys ev).nextId := by
  cases ev with
  | runScript lines =>
    exact runLines_keeps_cancelled _ _ _ (by simp [pendingIds]) h2
  | fire id =>
    simp only [step]
    split
    · exact ⟨h1, h2⟩
    · apply runLines_keeps_cancelled
      · simp only [pendingIds, List.mem_map] at h1 ⊢
        rintro ⟨tm, hmem, heq⟩
        exact h1 ⟨tm, List.mem_of_mem_filter hmem, heq⟩
      · exact h2

theorem steps_keep_cancelled (sys : Sys) (evs : List Ev) (t : Nat)
    (h1 : t ∉ pendingIds sys) (h2 : t < sys.nextId) :
    t ∉ pendingIds (steps sys evs) ∧ t < (steps sys evs).nextId := by
  induction evs generalizing sys with
  | nil => exact ⟨h1, h2⟩
  | cons e evs ih =>
    have hs := step_keeps_cancelled sys e t h1 h2
    exact ih _ hs.1 hs.2

theorem fire_cancelled_noop (sys : Sys) (t : Nat) (h : t ∉ pendingIds sys) :
    step sys (.fire t) = sys := by
  simp only [step]
  have hf : sys.pending.find? (fun tm => tm.id = t) = none := by
    rw [List.find?_eq_none]
    intro x hx
    simp only [pendingIds, List.mem_map, not_exists] at h
    simp only [decide_eq_true_eq]
    intro hc
    exact (h x) ⟨hx, hc⟩
  rw [hf]

/-- C9: invoking `run` while a previous run is suspended on a `wait` first
resets, cancelling every outstanding timer; timer ids are never reused
(the host counter is monotone), so the cancelled wait's continuation never
fires — firing the cancelled id is a no-op after any further events — and
the prior run's remaining lines are never executed.  Concretely,
`wait 2 seconds` registers a 2000 ms timer carrying the rest of the
script as its continuation. -/
theorem rerun_cancels_pending_wait (sys : Sys) (t : Nat) (lines : List String)
    (hinv : ∀ i0 ∈ pendingIds sys, i0 < sys.nextId)
    (ht : t ∈ pendingIds sys) :
    t ∉ pendingIds (step sys (.runScript lines)) ∧
    (∀ evs : List Ev, t ∉ pendingIds (steps (step sys (.runScript lines)) evs)) ∧
    (∀ evs : List Ev,
      steps (step sys (.runScript lines)) (evs ++ [.fire t]) =
        steps (step sys (.runScript lines)) evs) ∧
    pendingIds (step sys0 (.runScript ["wait 2 seconds", "paint bg red"])) =
      [0] ∧
    (step sys0 (.runScript ["wait 2 seconds", "paint bg red"])).pending.map
      (fun tm => (tm.ms, tm.rest)) = [(.num 2000, ["paint bg red"])] := by
  have h2 : t < sys.nextId := hinv t ht
  have hrun : t ∉ pendingIds (step sys (.runScript lines)) ∧
      t < (step sys (.runScript lines)).nextId := by
    simp only [step]
    exact runLines_keeps_cancelled _ _ _ (by simp [pendingIds]) h2
  refine ⟨hrun.1, ?_, ?_, by decide, by decide⟩
  · intro evs
    exact (steps_keep_cancelled _ evs t hrun.1 hrun.2).1
  · intro evs
    have hnot := steps_keep_cancelled (step sys (.runScript lines)) evs t
      hrun.1 hrun.2
    have : steps (step sys (.runScript lines)) (evs ++ [.fire t]) =
        step (steps (step sys (.runScript lines)) evs) (.fire t) := by
      simp [steps, List.foldl_append]
    rw [this, fire_cancelled_noop _ _ hnot.1]

/-- Witness for `rerun_cancels_pending_wait`: a run of
`wait 2 seconds; paint bg red` suspends with timer 0 pending; re-running
cancels it, and firing 0 afterwards changes nothing. -/
theorem rerun_cancels_pending_wait_witness :
    ((∀ i0 ∈ pendingIds (step sys0 (.runScript ["wait 2 seconds", "paint bg red"])),
        i0 < (step sys0 (.runScript ["wait 2 seconds", "paint bg red"])).nextId) ∧
     0 ∈ pendingIds (step sys0 (.runScript ["wait 2 seconds", "paint bg red"]))) ∧
    (0 ∉ pendingIds (step (step sys0 (.runScript ["wait 2 seconds", "paint bg red"]))
        (.runScript ["new rectangle rr"])) ∧
     steps (step (step sys0 (.runScript ["wait 2 seconds", "paint bg red"]))
        (.runScript ["new rectangle rr"])) [.fire 0] =
       steps (step (step sys0 (.runScript ["wait 2 seconds", "paint bg red"]))
        (.runScript ["new rectangle rr"])) []) :=
  ⟨⟨by decide, by decide⟩,
   ⟨(rerun_cancels_pending_wait
       (step sys0 (.runScript ["wait 2 seconds", "paint bg red"])) 0
       ["new rectangle rr"] (by decide) (by decide)).1,
    (rerun_cancels_pending_wait
       (step sys0 (.runScript ["wait 2 seconds", "paint bg red"])) 0
       ["new rectangle rr"] (by decide) (by decide)).2.2.1 []⟩⟩
